import Mathlib

/-
Verification of the Lambda Labs backend of skypilot:
the resource resolver in sky/clouds/lambda_labs.py and the node lifecycle
manager in sky/skylet/providers/lambda_labs/node_provider.py,
shallowly embedded as pure Lean functions.
-/

set_option autoImplicit false

/-! ## Association maps with Python dict semantics

Python dicts keep the first-insertion position of a key and overwrite its
value on re-assignment; a fresh key is appended at the end.  `dictInsert`
mirrors `d[k] = v`, `dictGet` mirrors `d.get(k)`. -/

def dictInsert {α : Type} : List (String × α) → String → α → List (String × α)
  | [], k, v => [(k, v)]
  | p :: rest, k, v => if p.1 = k then (k, v) :: rest else p :: dictInsert rest k v

def dictGet {α : Type} : List (String × α) → String → Option α
  | [], _ => none
  | p :: rest, k => if p.1 = k then some p.2 else dictGet rest k

/-- Tag maps are string-to-string Python dicts. -/
abbrev Tags := List (String × String)

/-- Python `old.update(new)`: fold the entries of `new` into `old`. -/
def tagsUpdate (old new : Tags) : Tags :=
  new.foldl (fun acc p => dictInsert acc p.1 p.2) old

/-! ## Resource resolver (sky/clouds/lambda_labs.py) -/

/-- Modelled from the spec: a name-identified Zone unit. -/
structure Zone where
  name : String
deriving DecidableEq, Repr

/-- Modelled from the spec: a Region owns an ordered list of Zones
(possibly empty); the Lambda backend builds its regions with no zones. -/
structure Region where
  name : String
  zones : List Zone
deriving DecidableEq, Repr

/-- The provider-agnostic resource description (`resources_lib.Resources`),
an immutable value with copy-with-overrides semantics.  `launchable`
models the value of the external `is_launchable()` predicate. -/
structure ResourceSpec where
  cloud : Option String
  instance_type : Option String
  accelerators : Option (List (String × Nat))
  region : Option String
  zone : Option String
  use_spot : Bool
  launchable : Bool
deriving DecidableEq, Repr

/-- Modelled from the spec: the read-only catalog oracle
(`sky.clouds.service_catalog`), abstracted as a pair of query functions. -/
structure Catalog where
  get_instance_type_for_accelerator :
    String → Nat → Bool → Option String → Option String →
      Option (List String) × List String
  get_region_zones_for_instance_type : String → Bool → List Region

/-- The hard-coded region list of `Lambda.regions`. -/
def lambdaRegions : List Region :=
  [⟨"us-east-1", []⟩, ⟨"us-west-2", []⟩, ⟨"us-west-1", []⟩, ⟨"us-south-1", []⟩,
   ⟨"asia-northeast-1", []⟩, ⟨"asia-northeast-2", []⟩, ⟨"asia-south-1", []⟩,
   ⟨"australia-southeast-1", []⟩, ⟨"europe-central-1", []⟩,
   ⟨"europe-south-1", []⟩, ⟨"me-west-1", []⟩]

/-- `Lambda.get_default_instance_type`. -/
def get_default_instance_type : String := "gpu_1x_a100_sxm4"

/-- `Lambda.regions_with_offering`.  The `accelerators` and `zone`
arguments are accepted and discarded exactly as in the source. -/
def regions_with_offering (cat : Catalog) (instance_type : Option String)
    (accelerators : Option (List (String × Nat))) (use_spot : Bool)
    (region : Option String) (zone : Option String) : List Region :=
  let _ := accelerators
  let _ := zone
  if use_spot then []
  else
    let regions :=
      match instance_type with
      | none => lambdaRegions
      | some it => cat.get_region_zones_for_instance_type it use_spot
    match region with
    | none => regions
    | some r => regions.filter (fun reg => reg.name = r)

/-- `Lambda.region_zones_provision_loop`: the generator is embedded as the
finite list of pairs it yields, in order. -/
def region_zones_provision_loop (cat : Catalog) (instance_type : Option String)
    (accelerators : Option (List (String × Nat))) (use_spot : Bool) :
    List (Region × List Zone) :=
  (regions_with_offering cat instance_type accelerators use_spot none none).map
    (fun r => (r, r.zones))

/-- The copy performed by `_make` inside `get_feasible_launchable_resources`:
`resources.copy(cloud=Lambda(), instance_type=..., accelerators=None)`. -/
def resourcesCopyLambda (resources : ResourceSpec) (it : String) : ResourceSpec :=
  { resources with cloud := some "Lambda", instance_type := some it,
                   accelerators := none }

/-- `Lambda.get_feasible_launchable_resources`.  Python assertion failures
are embedded as `Except.error`. -/
def get_feasible_launchable_resources (cat : Catalog)
    (resources : ResourceSpec) :
    Except String (List ResourceSpec × List String) :=
  if resources.use_spot then Except.ok ([], [])
  else
    match resources.instance_type with
    | some _ =>
        if resources.launchable then
          Except.ok ([{ resources with accelerators := none }], [])
        else Except.error "AssertionError: resources not launchable"
    | none =>
        match resources.accelerators with
        | none =>
            Except.ok ([resourcesCopyLambda resources get_default_instance_type],
                       [])
        | some accList =>
            match accList with
            | [(acc, acc_count)] =>
                let res := cat.get_instance_type_for_accelerator acc acc_count
                    resources.use_spot resources.region resources.zone
                match res.1 with
                | none => Except.ok ([], res.2)
                | some instance_list =>
                    Except.ok (instance_list.map (resourcesCopyLambda resources),
                               res.2)
            | _ => Except.error "AssertionError: accelerator count not one"

/-- C4: for every catalog, instance type and accelerator argument,
`region_zones_provision_loop` with `use_spot = true` yields the empty
sequence of (Region, Zones) pairs. -/
theorem c4_spot_provision_loop_empty (cat : Catalog)
    (instance_type : Option String)
    (accelerators : Option (List (String × Nat))) :
    region_zones_provision_loop cat instance_type accelerators true = [] := by
  simp [region_zones_provision_loop, regions_with_offering]

/-- A catalog oracle that never finds instance types and offers no
suggestions. -/
def trivialCatalog : Catalog :=
  { get_instance_type_for_accelerator := fun _ _ _ _ _ => (none, []),
    get_region_zones_for_instance_type := fun _ _ => [] }

/-- A catalog oracle that never finds instance types but always offers one
fuzzy suggestion. -/
def fuzzyCatalog : Catalog :=
  { get_instance_type_for_accelerator :=
      fun _ _ _ _ _ => (none, ["gpu_1x_a100_sxm4"]),
    get_region_zones_for_instance_type := fun _ _ => [] }

/-- A spot request with `instance_type` set. -/
def specC1 : ResourceSpec :=
  { cloud := none, instance_type := some "gpu_1x_a100_sxm4",
    accelerators := some [("A100", 1)], region := none, zone := none,
    use_spot := true, launchable := true }

/-- The same request with the spot flag cleared. -/
def specC1ok : ResourceSpec := { specC1 with use_spot := false }

/-- C1 counterexample: a ResourceSpec with `instance_type` set but
`use_spot = true` resolves to zero candidates, not one, because the spot
check precedes the instance-type branch. -/
theorem c1_counterexample :
    specC1.instance_type = some "gpu_1x_a100_sxm4" ∧
    specC1.use_spot = true ∧
    get_feasible_launchable_resources trivialCatalog specC1 =
      Except.ok ([], []) ∧
    ([] : List ResourceSpec).length ≠ 1 :=
  ⟨rfl, rfl, rfl, by decide⟩

/-- C1 (amended): for every ResourceSpec whose `instance_type` is set, whose
`use_spot` flag is false and which satisfies the launchability precondition,
resolve returns exactly one candidate, a copy of the input with the
accelerators field cleared, together with an empty fuzzy list. -/
theorem c1_instance_type_single_candidate (cat : Catalog) (r : ResourceSpec)
    (it : String) (hspot : r.use_spot = false) (hit : r.instance_type = some it)
    (hlaunch : r.launchable = true) :
    get_feasible_launchable_resources cat r =
      Except.ok ([{ r with accelerators := none }], []) := by
  simp [get_feasible_launchable_resources, hspot, hit, hlaunch]

/-- C1 witness: the amended theorem applied at a concrete non-spot
launchable request. -/
theorem c1_witness :
    specC1ok.use_spot = false ∧
    specC1ok.instance_type = some "gpu_1x_a100_sxm4" ∧
    specC1ok.launchable = true ∧
    get_feasible_launchable_resources trivialCatalog specC1ok =
      Except.ok ([{ specC1ok with accelerators := none }], []) :=
  ⟨rfl, rfl, rfl,
   c1_instance_type_single_candidate trivialCatalog specC1ok
     "gpu_1x_a100_sxm4" rfl rfl rfl⟩

/-- A spot accelerator request (no instance type, one accelerator kind). -/
def specC3 : ResourceSpec :=
  { cloud := none, instance_type := none,
    accelerators := some [("A100", 1)], region := none, zone := none,
    use_spot := true, launchable := true }

/-- The same accelerator request with the spot flag cleared. -/
def specC3ok : ResourceSpec := { specC3 with use_spot := false }

/-- C3 counterexample: for a spot accelerator request the resolver returns
`([], [])` without consulting the oracle, so the fuzzy list is not the
oracle fuzzy-suggestion list (here `["gpu_1x_a100_sxm4"]`). -/
theorem c3_counterexample :
    specC3.instance_type = none ∧
    specC3.accelerators = some [("A100", 1)] ∧
    fuzzyCatalog.get_instance_type_for_accelerator "A100" 1 specC3.use_spot
      specC3.region specC3.zone = (none, ["gpu_1x_a100_sxm4"]) ∧
    get_feasible_launchable_resources fuzzyCatalog specC3 =
      Except.ok ([], []) ∧
    ([] : List String) ≠ ["gpu_1x_a100_sxm4"] :=
  ⟨rfl, rfl, rfl, rfl, by decide⟩

/-- C3 (amended): for every non-spot accelerator request (no instance type,
exactly one accelerator kind with count at least 1), if the oracle reports
no matching instance types then resolve returns the empty candidate list
paired with the oracle fuzzy-suggestion list, and does not raise. -/
theorem c3_no_match_returns_oracle_fuzzy (cat : Catalog) (r : ResourceSpec)
    (acc : String) (acc_count : Nat)
    (hit : r.instance_type = none)
    (haccs : r.accelerators = some [(acc, acc_count)])
    (hcount : 1 ≤ acc_count)
    (hspot : r.use_spot = false)
    (hnone : (cat.get_instance_type_for_accelerator acc acc_count r.use_spot
        r.region r.zone).1 = none) :
    get_feasible_launchable_resources cat r =
      Except.ok ([], (cat.get_instance_type_for_accelerator acc acc_count
        r.use_spot r.region r.zone).2) := by
  rw [hspot] at hnone
  simp only [get_feasible_launchable_resources, hspot, hit, haccs]
  simp only [Bool.false_eq_true, if_false]
  split
  · rfl
  · next heq => rw [hnone] at heq; cases heq

/-- C3 witness: the amended theorem applied at a concrete non-spot
accelerator request against the always-fuzzy catalog. -/
theorem c3_witness :
    specC3ok.instance_type = none ∧
    specC3ok.accelerators = some [("A100", 1)] ∧
    1 ≤ 1 ∧
    specC3ok.use_spot = false ∧
    (fuzzyCatalog.get_instance_type_for_accelerator "A100" 1 specC3ok.use_spot
      specC3ok.region specC3ok.zone).1 = none ∧
    get_feasible_launchable_resources fuzzyCatalog specC3ok =
      Except.ok ([], (fuzzyCatalog.get_instance_type_for_accelerator "A100" 1
        specC3ok.use_spot specC3ok.region specC3ok.zone).2) :=
  ⟨rfl, rfl, by decide, rfl, rfl,
   c3_no_match_returns_oracle_fuzzy fuzzyCatalog specC3ok "A100" 1
     rfl rfl (by decide) rfl rfl⟩

/-! ## Node lifecycle manager
(sky/skylet/providers/lambda_labs/node_provider.py)

The remote listing returned by `lambda_client.ls()` is passed to every
operation as an explicit `List VM` argument; the mutable fields of
`LambdaNodeProvider` form `ProviderState`.  The local tag-metadata store
(`Metadata`, with None-as-delete semantics) is a function
`String → Option Tags`. -/

/-- One VM record of the remote listing (the fields the provider reads). -/
structure VM where
  id : String
  state : String
  ipv4 : String
  is_terminated : Bool
  public_key_name : String
deriving DecidableEq, Repr

/-- The node record built by `_extract_metadata`. -/
structure NodeRecord where
  id : String
  status : String
  tags : Tags
  external_ip : String
  internal_ip : String
  is_terminated : Bool
deriving DecidableEq, Repr

/-- The mutable state of a `LambdaNodeProvider` instance. -/
structure ProviderState where
  resource_group : String
  local_metadata : String → Option Tags
  cached_nodes : List (String × NodeRecord)

/-- The inner `match_tags` closure of `_get_filtered_nodes`: every key of
`tag_filters` must be present with exactly the given value. -/
def match_tags (meta : String → Option Tags) (tag_filters : Tags)
    (vm : VM) : Bool :=
  let tags := (meta vm.id).getD []
  tag_filters.all (fun p => dictGet tags p.1 == some p.2)

/-- `LambdaNodeProvider._extract_metadata`. -/
def _extract_metadata (meta : String → Option Tags) (vm : VM) : NodeRecord :=
  { id := vm.id, status := vm.state,
    tags := (meta vm.id).getD [],
    external_ip := vm.ipv4, internal_ip := vm.ipv4,
    is_terminated := vm.is_terminated }

/-- `LambdaNodeProvider._get_filtered_nodes`: list remote VMs, keep those of
this resource group whose joined tags match the filters, rebuild the cache
dict wholesale, and return it. -/
def _get_filtered_nodes (s : ProviderState) (listing : List VM)
    (tag_filters : Tags) : ProviderState × List (String × NodeRecord) :=
  let vms := listing.filter (fun vm => vm.public_key_name = s.resource_group)
  let nodes := (vms.filter (match_tags s.local_metadata tag_filters)).map
      (_extract_metadata s.local_metadata)
  let cache := nodes.foldl (fun d n => dictInsert d n.id n) []
  ({ s with cached_nodes := cache }, cache)

/-- `LambdaNodeProvider.non_terminated_nodes`: refresh with the filters,
then keep the ids of the non-terminated records. -/
def non_terminated_nodes (s : ProviderState) (listing : List VM)
    (tag_filters : Tags) : ProviderState × List String :=
  let res := _get_filtered_nodes s listing tag_filters
  (res.1, (res.2.filter (fun p => !p.2.is_terminated)).map (fun p => p.1))

/-- `LambdaNodeProvider._get_node`: full unfiltered refresh, then a cache
lookup. -/
def _get_node (s : ProviderState) (listing : List VM) (node_id : String) :
    ProviderState × Option NodeRecord :=
  let res := _get_filtered_nodes s listing []
  (res.1, dictGet res.1.cached_nodes node_id)

/-- `LambdaNodeProvider._get_cached_node`: serve from the cache when the id
is present, otherwise fall back to `_get_node`. -/
def _get_cached_node (s : ProviderState) (listing : List VM)
    (node_id : String) : ProviderState × Option NodeRecord :=
  match dictGet s.cached_nodes node_id with
  | some n => (s, some n)
  | none => _get_node s listing node_id

/-- `LambdaNodeProvider.is_running`.  Python evaluates
`node['status'] == 'running'`, which raises when the node is missing;
the raise is embedded as `none`. -/
def is_running (s : ProviderState) (listing : List VM) (node_id : String) :
    Option (ProviderState × Bool) :=
  match _get_node s listing node_id with
  | (_, none) => none
  | (s2, some node) => some (s2, node.status == "running")

/-- `LambdaNodeProvider.is_terminated`: a missing node counts as
terminated. -/
def is_terminated (s : ProviderState) (listing : List VM)
    (node_id : String) : ProviderState × Bool :=
  match _get_node s listing node_id with
  | (s2, none) => (s2, true)
  | (s2, some node) => (s2, node.is_terminated)

/-- `LambdaNodeProvider.node_tags`.  Python subscripts the possibly-missing
cached node; the raise is embedded as `none`. -/
def node_tags (s : ProviderState) (listing : List VM) (node_id : String) :
    Option (ProviderState × Tags) :=
  match _get_cached_node s listing node_id with
  | (_, none) => none
  | (s2, some node) => some (s2, node.tags)

/-- `LambdaNodeProvider.external_ip`: the cached value, or — when the cached
value is the empty (falsy) string — the value after a fresh lookup. -/
def external_ip (s : ProviderState) (listing : List VM) (node_id : String) :
    Option (ProviderState × String) :=
  match _get_cached_node s listing node_id with
  | (_, none) => none
  | (s2, some node) =>
      if node.external_ip ≠ "" then some (s2, node.external_ip)
      else
        match _get_node s2 listing node_id with
        | (_, none) => none
        | (s3, some fresh) => some (s3, fresh.external_ip)

/-- `LambdaNodeProvider.internal_ip`: same shape as `external_ip` on the
internal field. -/
def internal_ip (s : ProviderState) (listing : List VM) (node_id : String) :
    Option (ProviderState × String) :=
  match _get_cached_node s listing node_id with
  | (_, none) => none
  | (s2, some node) =>
      if node.internal_ip ≠ "" then some (s2, node.internal_ip)
      else
        match _get_node s2 listing node_id with
        | (_, none) => none
        | (s3, some fresh) => some (s3, fresh.internal_ip)

/-- `LambdaNodeProvider.set_node_tags`: merge the new tags into the node
tags obtained from `_get_cached_node` (Python mutates that dict in place,
so the cached entry is updated too) and persist the merged map to the local
metadata store. -/
def set_node_tags (s : ProviderState) (listing : List VM) (node_id : String)
    (tags : Tags) : Option ProviderState :=
  match _get_cached_node s listing node_id with
  | (_, none) => none
  | (s2, some node) =>
      let merged := tagsUpdate node.tags tags
      some { s2 with
             cached_nodes :=
               dictInsert s2.cached_nodes node_id { node with tags := merged },
             local_metadata :=
               fun k => if k = node_id then some merged
                        else s2.local_metadata k }

/-- `LambdaNodeProvider.terminate_node`: one remote delete call, then the
local tag-metadata entry is set to None (deleted).  The second component
lists the ids passed to `lambda_client.rm`, in order. -/
def terminate_node (s : ProviderState) (node_id : String) :
    ProviderState × List String :=
  ({ s with local_metadata :=
       fun k => if k = node_id then none else s.local_metadata k },
   [node_id])

/-! ## Dictionary lemmas -/

theorem mem_dictInsert {α : Type} {d : List (String × α)} {k : String} {v : α}
    {p : String × α} (h : p ∈ dictInsert d k v) : p = (k, v) ∨ p ∈ d := by
  induction d with
  | nil => simpa [dictInsert] using h
  | cons q rest ih =>
      simp only [dictInsert] at h
      by_cases hk : q.1 = k
      · rw [if_pos hk] at h
        rcases List.mem_cons.mp h with h1 | h2
        · exact Or.inl h1
        · exact Or.inr (List.mem_cons_of_mem q h2)
      · rw [if_neg hk] at h
        rcases List.mem_cons.mp h with h1 | h2
        · exact Or.inr (by rw [h1]; exact List.mem_cons_self q rest)
        · rcases ih h2 with h3 | h4
          · exact Or.inl h3
          · exact Or.inr (List.mem_cons_of_mem q h4)

theorem nodup_keys_dictInsert {α : Type} {d : List (String × α)} {k : String}
    {v : α} (h : (d.map Prod.fst).Nodup) :
    ((dictInsert d k v).map Prod.fst).Nodup := by
  induction d with
  | nil => simp [dictInsert]
  | cons q rest ih =>
      simp only [dictInsert]
      by_cases hk : q.1 = k
      · rw [if_pos hk]
        simp only [List.map_cons] at h ⊢
        rw [← hk]
        exact h
      · rw [if_neg hk]
        simp only [List.map_cons, List.nodup_cons] at h ⊢
        refine ⟨?_, ih h.2⟩
        intro hmem
        rcases List.mem_map.mp hmem with ⟨p, hp, hpk⟩
        rcases mem_dictInsert hp with h1 | h2
        · rw [h1] at hpk; exact hk hpk.symm
        · exact h.1 (hpk ▸ List.mem_map_of_mem Prod.fst h2)

theorem dictGet_of_mem_nodup {α : Type} {d : List (String × α)} {k : String}
    {v : α} (hnd : (d.map Prod.fst).Nodup) (h : (k, v) ∈ d) :
    dictGet d k = some v := by
  induction d with
  | nil => cases h
  | cons q rest ih =>
      simp only [List.map_cons, List.nodup_cons] at hnd
      simp only [dictGet]
      rcases List.mem_cons.mp h with h1 | h2
      · rw [← h1]
        simp
      · have hk : q.1 ≠ k := by
          intro he
          exact hnd.1 (he ▸ List.mem_map_of_mem Prod.fst h2)
        rw [if_neg hk]
        exact ih hnd.2 h2

theorem mem_of_dictGet {α : Type} {d : List (String × α)} {k : String} {v : α}
    (h : dictGet d k = some v) : (k, v) ∈ d := by
  induction d with
  | nil => cases h
  | cons q rest ih =>
      simp only [dictGet] at h
      by_cases hk : q.1 = k
      · rw [if_pos hk] at h
        have hv : q.2 = v := Option.some.inj h
        have : q = (k, v) := Prod.ext hk hv
        rw [← this]
        exact List.mem_cons_self q rest
      · rw [if_neg hk] at h
        exact List.mem_cons_of_mem q (ih h)

theorem dictGet_insert_self {α : Type} (d : List (String × α)) (k : String)
    (v : α) : dictGet (dictInsert d k v) k = some v := by
  induction d with
  | nil => simp [dictInsert, dictGet]
  | cons q rest ih =>
      simp only [dictInsert]
      by_cases hk : q.1 = k
      · rw [if_pos hk]
        simp [dictGet]
      · rw [if_neg hk]
        simp only [dictGet]
        rw [if_neg hk]
        exact ih

theorem dictInsert_of_not_key {α : Type} {d : List (String × α)} {k : String}
    {v : α} (h : ∀ p ∈ d, p.1 ≠ k) : dictInsert d k v = d ++ [(k, v)] := by
  induction d with
  | nil => rfl
  | cons q rest ih =>
      simp only [dictInsert]
      rw [if_neg (h q (List.mem_cons_self q rest))]
      rw [ih (fun p hp => h p (List.mem_cons_of_mem q hp))]
      simp

theorem foldl_insert_mem {ns : List NodeRecord}
    {d : List (String × NodeRecord)} {p : String × NodeRecord}
    (h : p ∈ ns.foldl (fun d n => dictInsert d n.id n) d) :
    p ∈ d ∨ ∃ n, n ∈ ns ∧ p = (n.id, n) := by
  induction ns generalizing d with
  | nil => exact Or.inl h
  | cons m rest ih =>
      rw [List.foldl_cons] at h
      rcases ih h with h1 | h2
      · rcases mem_dictInsert h1 with h3 | h4
        · exact Or.inr ⟨m, List.mem_cons_self m rest, h3⟩
        · exact Or.inl h4
      · rcases h2 with ⟨n, hn, hp⟩
        exact Or.inr ⟨n, List.mem_cons_of_mem m hn, hp⟩

theorem foldl_insert_keys_nodup {ns : List NodeRecord}
    {d : List (String × NodeRecord)} (h : (d.map Prod.fst).Nodup) :
    ((ns.foldl (fun d n => dictInsert d n.id n) d).map Prod.fst).Nodup := by
  induction ns generalizing d with
  | nil => exact h
  | cons m rest ih =>
      rw [List.foldl_cons]
      exact ih (nodup_keys_dictInsert h)

theorem foldl_insert_eq_append {ns : List NodeRecord}
    {d : List (String × NodeRecord)}
    (hnd : (ns.map NodeRecord.id).Nodup)
    (hdisj : ∀ n ∈ ns, ∀ p ∈ d, p.1 ≠ n.id) :
    ns.foldl (fun d n => dictInsert d n.id n) d =
      d ++ ns.map (fun n => (n.id, n)) := by
  induction ns generalizing d with
  | nil => simp
  | cons m rest ih =>
      simp only [List.map_cons, List.nodup_cons] at hnd
      rw [List.foldl_cons]
      rw [dictInsert_of_not_key
        (fun p hp => hdisj m (List.mem_cons_self m rest) p hp)]
      rw [ih hnd.2 ?_]
      · simp
      · intro n hn p hp
        rcases List.mem_append.mp hp with h1 | h2
        · exact hdisj n (List.mem_cons_of_mem m hn) p h1
        · have hpm : p = (m.id, m) := List.mem_singleton.mp h2
          rw [hpm]
          intro he
          have he2 : m.id = n.id := he
          exact hnd.1 (by rw [he2]; exact List.mem_map_of_mem NodeRecord.id hn)

/-! ## Refresh lemmas -/

theorem _get_filtered_nodes_snd (s : ProviderState) (listing : List VM)
    (tag_filters : Tags) :
    (_get_filtered_nodes s listing tag_filters).2 =
      (((listing.filter (fun vm => vm.public_key_name = s.resource_group)).filter
          (match_tags s.local_metadata tag_filters)).map
        (_extract_metadata s.local_metadata)).foldl
        (fun d n => dictInsert d n.id n) [] := rfl

theorem _get_filtered_nodes_fst_cached (s : ProviderState) (listing : List VM)
    (tag_filters : Tags) :
    (_get_filtered_nodes s listing tag_filters).1.cached_nodes =
      (_get_filtered_nodes s listing tag_filters).2 := rfl

theorem _get_filtered_nodes_fst_meta (s : ProviderState) (listing : List VM)
    (tag_filters : Tags) :
    (_get_filtered_nodes s listing tag_filters).1.local_metadata =
      s.local_metadata := rfl

theorem mem_refresh_spec {s : ProviderState} {listing : List VM}
    {tag_filters : Tags} {p : String × NodeRecord}
    (h : p ∈ (_get_filtered_nodes s listing tag_filters).2) :
    ∃ vm, vm ∈ listing ∧ vm.public_key_name = s.resource_group ∧
      match_tags s.local_metadata tag_filters vm = true ∧
      p = ((_extract_metadata s.local_metadata vm).id,
           _extract_metadata s.local_metadata vm) := by
  rw [_get_filtered_nodes_snd] at h
  rcases foldl_insert_mem h with h1 | ⟨n, hn, hp⟩
  · cases h1
  · rcases List.mem_map.mp hn with ⟨vm, hvm, hev⟩
    have hf2 := List.mem_filter.mp hvm
    have hf1 := List.mem_filter.mp hf2.1
    refine ⟨vm, hf1.1, ?_, hf2.2, ?_⟩
    · simpa using hf1.2
    · rw [hp, hev]

theorem refresh_keys_nodup (s : ProviderState) (listing : List VM)
    (tag_filters : Tags) :
    ((_get_filtered_nodes s listing tag_filters).2.map Prod.fst).Nodup := by
  rw [_get_filtered_nodes_snd]
  exact foldl_insert_keys_nodup (by simp)

theorem refresh_record_ips {s : ProviderState} {listing : List VM}
    {tag_filters : Tags} {p : String × NodeRecord}
    (h : p ∈ (_get_filtered_nodes s listing tag_filters).2) :
    p.2.internal_ip = p.2.external_ip ∧ p.1 = p.2.id := by
  rcases mem_refresh_spec h with ⟨vm, _, _, _, hp⟩
  rw [hp]
  exact ⟨rfl, rfl⟩

theorem refresh_lookup_ips {s : ProviderState} {listing : List VM}
    {tag_filters : Tags} {node_id : String} {n : NodeRecord}
    (h : dictGet (_get_filtered_nodes s listing tag_filters).1.cached_nodes
        node_id = some n) :
    n.internal_ip = n.external_ip := by
  rw [_get_filtered_nodes_fst_cached] at h
  exact (refresh_record_ips (mem_of_dictGet h)).1

/-! ## C2: refresh returns exactly the matching records -/

/-- The two filtered VMs of `_get_filtered_nodes` have ids forming a
sublist of the listing ids, so distinct listing ids give distinct node
ids. -/
theorem refresh_node_ids_nodup {s : ProviderState} {listing : List VM}
    {tag_filters : Tags} (hnd : (listing.map VM.id).Nodup) :
    (((((listing.filter
          (fun vm => vm.public_key_name = s.resource_group)).filter
        (match_tags s.local_metadata tag_filters)).map
      (_extract_metadata s.local_metadata)).map NodeRecord.id)).Nodup := by
  rw [List.map_map]
  have hsub : ((listing.filter
        (fun vm => vm.public_key_name = s.resource_group)).filter
      (match_tags s.local_metadata tag_filters)).Sublist listing :=
    (List.filter_sublist _).trans (List.filter_sublist _)
  have hmap := hsub.map (NodeRecord.id ∘ _extract_metadata s.local_metadata)
  have hfun : (NodeRecord.id ∘ _extract_metadata s.local_metadata) = VM.id := by
    funext vm
    rfl
  rw [hfun] at hmap
  exact hnd.sublist hmap

/-- C2 (amended): for a remote listing with distinct vm ids, the refresh
returns exactly the node records of the VMs that belong to this manager's
resource group and whose joined tags contain every key/value pair of
`tag_filters`, a missing local entry joining as empty tags. -/
theorem c2_refresh_returns_exactly_matching (s : ProviderState)
    (listing : List VM) (tag_filters : Tags) (r : NodeRecord)
    (hnd : (listing.map VM.id).Nodup) :
    (∃ k, (k, r) ∈ (_get_filtered_nodes s listing tag_filters).2) ↔
      ∃ vm, vm ∈ listing ∧ vm.public_key_name = s.resource_group ∧
        match_tags s.local_metadata tag_filters vm = true ∧
        r = _extract_metadata s.local_metadata vm := by
  constructor
  · rintro ⟨k, hk⟩
    rcases mem_refresh_spec hk with ⟨vm, h1, h2, h3, h4⟩
    exact ⟨vm, h1, h2, h3, congrArg Prod.snd h4⟩
  · rintro ⟨vm, h1, h2, h3, h4⟩
    refine ⟨r.id, ?_⟩
    rw [_get_filtered_nodes_snd]
    rw [foldl_insert_eq_append (refresh_node_ids_nodup hnd)
      (fun n _ p hp => absurd hp (List.not_mem_nil p))]
    rw [List.nil_append]
    have hvm2 : vm ∈ (listing.filter
        (fun vm => vm.public_key_name = s.resource_group)).filter
        (match_tags s.local_metadata tag_filters) := by
      refine List.mem_filter.mpr ⟨List.mem_filter.mpr ⟨h1, ?_⟩, h3⟩
      simpa using h2
    have hr : r ∈ ((listing.filter
        (fun vm => vm.public_key_name = s.resource_group)).filter
        (match_tags s.local_metadata tag_filters)).map
        (_extract_metadata s.local_metadata) := by
      rw [h4]
      exact List.mem_map_of_mem (_extract_metadata s.local_metadata) hvm2
    exact List.mem_map.mpr ⟨r, hr, rfl⟩

/-- An empty-state provider for the "rg" resource group. -/
def s0 : ProviderState :=
  { resource_group := "rg", local_metadata := fun _ => none,
    cached_nodes := [] }

/-- A running VM with id "a" in resource group "rg". -/
def vmA1 : VM :=
  { id := "a", state := "running", ipv4 := "1.2.3.4",
    is_terminated := false, public_key_name := "rg" }

/-- A second VM with the same id "a" but a different state. -/
def vmA2 : VM :=
  { id := "a", state := "pending", ipv4 := "1.2.3.4",
    is_terminated := false, public_key_name := "rg" }

/-- C2 counterexample: with two remote records sharing id "a", both in the
resource group and both matching the empty filter, the refresh keeps only
the last record, so the first matching VM record is absent from the
result. -/
theorem c2_counterexample :
    vmA1 ∈ [vmA1, vmA2] ∧
    vmA1.public_key_name = s0.resource_group ∧
    match_tags s0.local_metadata [] vmA1 = true ∧
    (_get_filtered_nodes s0 [vmA1, vmA2] []).2 =
      [("a", _extract_metadata s0.local_metadata vmA2)] ∧
    _extract_metadata s0.local_metadata vmA1 ≠
      _extract_metadata s0.local_metadata vmA2 := by
  refine ⟨by decide, by decide, by decide, by decide, by decide⟩

/-- C2 witness: the amended theorem applied at a one-element listing with
distinct ids; the record of the single matching VM is in the result. -/
theorem c2_witness :
    ([vmA1].map VM.id).Nodup ∧
    (∃ k, (k, _extract_metadata s0.local_metadata vmA1) ∈
        (_get_filtered_nodes s0 [vmA1] []).2) :=
  ⟨by decide,
   (c2_refresh_returns_exactly_matching s0 [vmA1] []
      (_extract_metadata s0.local_metadata vmA1) (by decide)).mpr
     ⟨vmA1, by decide, by decide, by decide, rfl⟩⟩

/-! ## C5: non_terminated_nodes excludes terminated records -/

/-- C5: every id returned by `non_terminated_nodes` maps, in the cache of
the refresh performed by that same call, to a record with
`is_terminated = false`. -/
theorem c5_non_terminated_nodes_excludes (s : ProviderState)
    (listing : List VM) (tag_filters : Tags) (node_id : String)
    (h : node_id ∈ (non_terminated_nodes s listing tag_filters).2) :
    ∃ n, dictGet (non_terminated_nodes s listing
        tag_filters).1.cached_nodes node_id = some n ∧
      n.is_terminated = false := by
  have h2 : node_id ∈ ((_get_filtered_nodes s listing tag_filters).2.filter
      (fun p => !p.2.is_terminated)).map (fun p => p.1) := h
  rcases List.mem_map.mp h2 with ⟨p, hp, hpk⟩
  have hf := List.mem_filter.mp hp
  have hterm : p.2.is_terminated = false := by
    simpa using hf.2
  refine ⟨p.2, ?_, hterm⟩
  have hcache : (non_terminated_nodes s listing
      tag_filters).1.cached_nodes = (_get_filtered_nodes s listing
      tag_filters).2 := rfl
  rw [hcache, ← hpk]
  exact dictGet_of_mem_nodup (refresh_keys_nodup s listing tag_filters) hf.1

/-- C5 witness: the theorem applied at a concrete state with one running
node. -/
theorem c5_witness :
    "a" ∈ (non_terminated_nodes s0 [vmA1] []).2 ∧
    ∃ n, dictGet (non_terminated_nodes s0 [vmA1] []).1.cached_nodes "a" =
        some n ∧ n.is_terminated = false :=
  ⟨by decide, c5_non_terminated_nodes_excludes s0 [vmA1] [] "a" (by decide)⟩

/-! ## C6: set_node_tags merges and persists -/

/-- Unfolding `set_node_tags` when the cached lookup finds a node. -/
theorem set_node_tags_of_get {s sA : ProviderState} {listing : List VM}
    {node_id : String} {n : NodeRecord}
    (hg : _get_cached_node s listing node_id = (sA, some n)) (t : Tags) :
    set_node_tags s listing node_id t =
      some { sA with
        cached_nodes := dictInsert sA.cached_nodes node_id
          { n with tags := tagsUpdate n.tags t },
        local_metadata := fun k => if k = node_id
          then some (tagsUpdate n.tags t) else sA.local_metadata k } := by
  simp only [set_node_tags, hg]

/-- `_get_cached_node` is a pure cache hit when the id is cached. -/
theorem get_cached_of_hit {s : ProviderState} {listing : List VM}
    {node_id : String} {n : NodeRecord}
    (hs : dictGet s.cached_nodes node_id = some n) :
    _get_cached_node s listing node_id = (s, some n) := by
  simp only [_get_cached_node, hs]

/-- C6: for a node id known to the manager, two successive `set_node_tags`
calls merge (later writes winning) rather than replace: the local metadata
store holds the two-step merge of the original tags, and `node_tags`
returns it. -/
theorem c6_set_node_tags_merges (s : ProviderState) (listing : List VM)
    (node_id : String) (t1 t2 : Tags) (n : NodeRecord)
    (h : (_get_cached_node s listing node_id).2 = some n) :
    ∃ s1 s2,
      set_node_tags s listing node_id t1 = some s1 ∧
      set_node_tags s1 listing node_id t2 = some s2 ∧
      s2.local_metadata node_id =
        some (tagsUpdate (tagsUpdate n.tags t1) t2) ∧
      (node_tags s2 listing node_id).map (fun p => p.2) =
        some (tagsUpdate (tagsUpdate n.tags t1) t2) := by
  rcases hg : _get_cached_node s listing node_id with ⟨sA, oA⟩
  rw [hg] at h
  have hoA : oA = some n := h
  subst hoA
  set m1 := tagsUpdate n.tags t1 with hm1
  set s1 : ProviderState := { sA with
      cached_nodes := dictInsert sA.cached_nodes node_id { n with tags := m1 },
      local_metadata := fun k => if k = node_id then some m1
        else sA.local_metadata k } with hs1
  have e1 : set_node_tags s listing node_id t1 = some s1 := by
    rw [hs1, hm1]
    exact set_node_tags_of_get hg t1
  have hget1 : dictGet s1.cached_nodes node_id = some { n with tags := m1 } := by
    rw [hs1]
    exact dictGet_insert_self _ _ _
  have hgc2 : _get_cached_node s1 listing node_id =
      (s1, some { n with tags := m1 }) := get_cached_of_hit hget1
  set m2 := tagsUpdate m1 t2 with hm2
  set s2 : ProviderState := { s1 with
      cached_nodes := dictInsert s1.cached_nodes node_id { n with tags := m2 },
      local_metadata := fun k => if k = node_id then some m2
        else s1.local_metadata k } with hs2
  have e2 : set_node_tags s1 listing node_id t2 = some s2 := by
    rw [hs2, hm2]
    exact set_node_tags_of_get hgc2 t2
  refine ⟨s1, s2, e1, e2, ?_, ?_⟩
  · rw [hs2]
    simp
  · have hget2 : dictGet s2.cached_nodes node_id =
        some { n with tags := m2 } := by
      rw [hs2]
      exact dictGet_insert_self _ _ _
    have hgc3 : _get_cached_node s2 listing node_id =
        (s2, some { n with tags := m2 }) := get_cached_of_hit hget2
    simp only [node_tags, hgc3, Option.map_some']

/-- A cached running node record with empty tags under id "a". -/
def n0 : NodeRecord :=
  { id := "a", status := "running", tags := [],
    external_ip := "1.2.3.4", internal_ip := "1.2.3.4",
    is_terminated := false }

/-- A provider state whose cache already holds `n0`. -/
def sC6 : ProviderState :=
  { resource_group := "rg", local_metadata := fun _ => none,
    cached_nodes := [("a", n0)] }

/-- C6 witness: the theorem applied at a concrete cached node, together
with the concrete merge result of the claim. -/
theorem c6_witness :
    (_get_cached_node sC6 [] "a").2 = some n0 ∧
    tagsUpdate (tagsUpdate n0.tags [("a", "1")]) [("b", "2")] =
      [("a", "1"), ("b", "2")] ∧
    (∃ s1 s2,
      set_node_tags sC6 [] "a" [("a", "1")] = some s1 ∧
      set_node_tags s1 [] "a" [("b", "2")] = some s2 ∧
      s2.local_metadata "a" =
        some (tagsUpdate (tagsUpdate n0.tags [("a", "1")]) [("b", "2")]) ∧
      (node_tags s2 [] "a").map (fun p => p.2) =
        some (tagsUpdate (tagsUpdate n0.tags [("a", "1")]) [("b", "2")])) :=
  ⟨by decide, by decide,
   c6_set_node_tags_merges sC6 [] "a" [("a", "1")] [("b", "2")] n0 (by decide)⟩

/-! ## C7: terminate_node effects and frame -/

/-- C7: `terminate_node` issues exactly one remote delete call (for the
given id), deletes the id from the local tag-metadata store, leaves every
other local entry and the whole `cached_nodes` map (and resource group)
unchanged. -/
theorem c7_terminate_node_effects (s : ProviderState) (node_id : String) :
    (terminate_node s node_id).2 = [node_id] ∧
    (terminate_node s node_id).1.local_metadata node_id = none ∧
    (terminate_node s node_id).1.cached_nodes = s.cached_nodes ∧
    (terminate_node s node_id).1.resource_group = s.resource_group ∧
    ∀ k, k ≠ node_id →
      (terminate_node s node_id).1.local_metadata k = s.local_metadata k := by
  refine ⟨rfl, by simp [terminate_node], rfl, rfl, ?_⟩
  intro k hk
  simp [terminate_node, hk]

/-- C7 witness: the theorem applied at a concrete state and id, with the
frame condition discharged at a different id. -/
theorem c7_witness :
    (terminate_node sC6 "a").2 = ["a"] ∧
    (terminate_node sC6 "a").1.local_metadata "a" = none ∧
    (terminate_node sC6 "a").1.cached_nodes = sC6.cached_nodes ∧
    (terminate_node sC6 "a").1.local_metadata "b" = sC6.local_metadata "b" :=
  ⟨(c7_terminate_node_effects sC6 "a").1,
   (c7_terminate_node_effects sC6 "a").2.1,
   (c7_terminate_node_effects sC6 "a").2.2.1,
   (c7_terminate_node_effects sC6 "a").2.2.2.2 "b" (by decide)⟩

/-! ## C8 and C9: status queries after a forced refresh -/

/-- Unfolding `_get_node` through the refresh it performs. -/
theorem _get_node_eq (s : ProviderState) (listing : List VM)
    (node_id : String) :
    _get_node s listing node_id =
      ((_get_filtered_nodes s listing []).1,
       dictGet (_get_filtered_nodes s listing []).1.cached_nodes node_id) :=
  rfl

/-- C8: `is_terminated` leaves the state fully refreshed with the empty
filter, and returns true exactly when the id is absent from the refreshed
cache or its refreshed record is terminated. -/
theorem c8_is_terminated_spec (s : ProviderState) (listing : List VM)
    (node_id : String) :
    (is_terminated s listing node_id).1 = (_get_filtered_nodes s listing []).1 ∧
    ((is_terminated s listing node_id).2 = true ↔
      dictGet (_get_filtered_nodes s listing []).1.cached_nodes node_id =
        none ∨
      ∃ n, dictGet (_get_filtered_nodes s listing []).1.cached_nodes node_id =
        some n ∧ n.is_terminated = true) := by
  rcases hd : dictGet (_get_filtered_nodes s listing []).1.cached_nodes
      node_id with _ | n
  · have hn : _get_node s listing node_id =
        ((_get_filtered_nodes s listing []).1, none) := by
      rw [_get_node_eq, hd]
    constructor
    · simp only [is_terminated, hn]
    · simp only [is_terminated, hn]
      simp
  · have hn : _get_node s listing node_id =
        ((_get_filtered_nodes s listing []).1, some n) := by
      rw [_get_node_eq, hd]
    constructor
    · simp only [is_terminated, hn]
    · simp only [is_terminated, hn]
      simp

/-- C9: `is_running` fails (raises, embedded as `none`) exactly when the id
is absent from the forced refresh, while `is_terminated` returns true on
that same input; when the record exists, `is_running` succeeds and reports
whether its status is "running". -/
theorem c9_is_running_partial_on_missing (s : ProviderState)
    (listing : List VM) (node_id : String) :
    (is_running s listing node_id = none ↔
      dictGet (_get_filtered_nodes s listing []).1.cached_nodes node_id =
        none) ∧
    (dictGet (_get_filtered_nodes s listing []).1.cached_nodes node_id =
        none → (is_terminated s listing node_id).2 = true) ∧
    (∀ n, dictGet (_get_filtered_nodes s listing []).1.cached_nodes node_id =
        some n → is_running s listing node_id =
          some ((_get_filtered_nodes s listing []).1,
                n.status == "running")) := by
  rcases hd : dictGet (_get_filtered_nodes s listing []).1.cached_nodes
      node_id with _ | n
  · have hn : _get_node s listing node_id =
        ((_get_filtered_nodes s listing []).1, none) := by
      rw [_get_node_eq, hd]
    refine ⟨by simp [is_running, hn, hd], ?_, ?_⟩
    · intro _
      simp only [is_terminated, hn]
    · intro n hsome
      cases hsome
  · have hn : _get_node s listing node_id =
        ((_get_filtered_nodes s listing []).1, some n) := by
      rw [_get_node_eq, hd]
    refine ⟨by simp [is_running, hn, hd], ?_, ?_⟩
    · intro habs
      cases habs
    · intro m hsome
      have hm : n = m := Option.some.inj hsome
      simp only [is_running, hn, ← hm]

/-- C9 witness: with an empty remote listing, the lookup after the refresh
misses, `is_running` fails and `is_terminated` reports true. -/
theorem c9_witness :
    is_running s0 [] "a" = none ∧ (is_terminated s0 [] "a").2 = true :=
  ⟨(c9_is_running_partial_on_missing s0 [] "a").1.mpr (by decide),
   (c9_is_running_partial_on_missing s0 [] "a").2.1 (by decide)⟩

/-! ## C10: internal and external IPs agree -/

/-- The fresh-lookup fallback of the IP getters yields the same value for
the external and the internal field, because the fresh record comes from a
refresh. -/
theorem fallback_ips_agree (s2 : ProviderState) (listing : List VM)
    (node_id : String) :
    Option.map (fun p : ProviderState × String => p.2)
      (match _get_node s2 listing node_id with
        | (_, none) => none
        | (s3, some fresh) => some (s3, fresh.external_ip)) =
    Option.map (fun p : ProviderState × String => p.2)
      (match _get_node s2 listing node_id with
        | (_, none) => none
        | (s3, some fresh) => some (s3, fresh.internal_ip)) := by
  rcases hd : dictGet (_get_filtered_nodes s2 listing []).1.cached_nodes
      node_id with _ | m
  · have hn : _get_node s2 listing node_id =
        ((_get_filtered_nodes s2 listing []).1, none) := by
      rw [_get_node_eq, hd]
    rw [hn]
  · have hn : _get_node s2 listing node_id =
        ((_get_filtered_nodes s2 listing []).1, some m) := by
      rw [_get_node_eq, hd]
    rw [hn]
    simp [refresh_lookup_ips hd]

/-- If every cached record under the queried id has equal IPs, the two IP
getters agree (both fail together or return the same string). -/
theorem external_internal_agree (s1 : ProviderState) (listing : List VM)
    (node_id : String)
    (hcache : ∀ n, dictGet s1.cached_nodes node_id = some n →
      n.internal_ip = n.external_ip) :
    (external_ip s1 listing node_id).map (fun p => p.2) =
      (internal_ip s1 listing node_id).map (fun p => p.2) := by
  rcases hd : dictGet s1.cached_nodes node_id with _ | n
  · have hgc : _get_cached_node s1 listing node_id =
        _get_node s1 listing node_id := by
      simp only [_get_cached_node, hd]
    rcases hd2 : dictGet (_get_filtered_nodes s1 listing []).1.cached_nodes
        node_id with _ | m
    · have hn : _get_node s1 listing node_id =
          ((_get_filtered_nodes s1 listing []).1, none) := by
        rw [_get_node_eq, hd2]
      simp only [external_ip, internal_ip, hgc, hn]
    · have hm := refresh_lookup_ips hd2
      have hn : _get_node s1 listing node_id =
          ((_get_filtered_nodes s1 listing []).1, some m) := by
        rw [_get_node_eq, hd2]
      simp only [external_ip, internal_ip, hgc, hn]
      rw [hm]
      by_cases hne : m.external_ip = ""
      · simp only [hne, ne_eq, not_true_eq_false, if_false]
        exact fallback_ips_agree _ listing node_id
      · simp [hne]
  · have hgc : _get_cached_node s1 listing node_id = (s1, some n) :=
      get_cached_of_hit hd
    have hip := hcache n hd
    simp only [external_ip, internal_ip, hgc]
    rw [hip]
    by_cases hne : n.external_ip = ""
    · simp only [hne, ne_eq, not_true_eq_false, if_false]
      exact fallback_ips_agree s1 listing node_id
    · simp [hne]

/-- C10: every record of a refresh has `internal_ip = external_ip` (both
copied from the single `ipv4` field), and after a refresh the two IP
getters return the same value for every id. -/
theorem c10_refresh_ips_equal (s : ProviderState) (listing : List VM)
    (tag_filters : Tags) (node_id : String) :
    ((_get_filtered_nodes s listing tag_filters).2.all
        (fun p => p.2.internal_ip == p.2.external_ip)) = true ∧
    (external_ip (_get_filtered_nodes s listing tag_filters).1 listing
        node_id).map (fun p => p.2) =
      (internal_ip (_get_filtered_nodes s listing tag_filters).1 listing
        node_id).map (fun p => p.2) := by
  constructor
  · rw [List.all_eq_true]
    intro p hp
    have hip := (refresh_record_ips hp).1
    simp [hip]
  · exact external_internal_agree _ listing node_id
      (fun n hn => refresh_lookup_ips hn)
